import Mathlib

set_option maxHeartbeats 1000000

/-- Capacity of the test registry (`BMT_MAX_TEST_CASES` in include/baremetal_test.h). -/
def BMT_MAX_TEST_CASES : Nat := 64

/-- Maximum length of a suite name buffer (`BMT_MAX_SUITE_NAME_LEN`). -/
def BMT_MAX_SUITE_NAME_LEN : Nat := 64

/-- Maximum length of a test name buffer (`BMT_MAX_TEST_NAME_LEN`). -/
def BMT_MAX_TEST_NAME_LEN : Nat := 64

/-- Modulus of the C type `uint32_t` used for tick values and durations. -/
def U32 : Nat := 4294967296

/-- One statement of a test body as seen by the BMT macro protocol
(include/baremetal_test.h).  `action n` is an arbitrary observable side
effect (for example the prints of `SUCCEED()`), tagged by `n` so execution
traces can be compared.  `assertCheck ok` is `BMT_ASSERT_COMMON` applied to a
condition that evaluates to `ok` (`FAIL()` is `assertCheck false`).
`expectCheck ok` is `BMT_EXPECT_COMMON` likewise.  `addFailure` is
`ADD_FAILURE()`, which calls `bmt_report_failure` directly and nothing else. -/
inductive Stmt where
  | action : Nat → Stmt
  | assertCheck : Bool → Stmt
  | expectCheck : Bool → Stmt
  | addFailure : Stmt
deriving DecidableEq, Repr

/-- Result of executing one test body: whether control returned normally
(`setjmp` saw 0 throughout, so `current_test_passed_assert` stays true), the
final value of the global `g_bmt_current_test_failed_expect`, the list of
statements that actually executed in order, and how many times
`bmt_report_failure` was called. -/
structure BodyResult where
  assertPassed : Bool
  expectFlag : Bool
  executed : List Stmt
  reports : Nat
deriving DecidableEq, Repr

/-- Execution of a test body under the macro protocol of
include/baremetal_test.h, threading the global expect-failure flag.
`BMT_ASSERT_COMMON` with a false condition reports and then calls
`bmt_terminate_current_test`, whose `longjmp` lands in `bmt_run_all_tests`
with `current_test_passed_assert = false`; no later statement of the body
runs and the global flag keeps its value at the jump.  `BMT_EXPECT_COMMON`
with a false condition reports, sets the flag and continues.  `ADD_FAILURE()`
only calls `bmt_report_failure`: it does not touch the flag and does not
jump. -/
def runBody : List Stmt → Bool → BodyResult
  | [], flag => ⟨true, flag, [], 0⟩
  | Stmt.action n :: rest, flag =>
      let r := runBody rest flag
      ⟨r.assertPassed, r.expectFlag, Stmt.action n :: r.executed, r.reports⟩
  | Stmt.assertCheck ok :: rest, flag =>
      if ok then
        let r := runBody rest flag
        ⟨r.assertPassed, r.expectFlag, Stmt.assertCheck ok :: r.executed, r.reports⟩
      else
        ⟨false, flag, [Stmt.assertCheck false], 1⟩
  | Stmt.expectCheck ok :: rest, flag =>
      if ok then
        let r := runBody rest flag
        ⟨r.assertPassed, r.expectFlag, Stmt.expectCheck ok :: r.executed, r.reports⟩
      else
        let r := runBody rest true
        ⟨r.assertPassed, r.expectFlag, Stmt.expectCheck ok :: r.executed, r.reports + 1⟩
  | Stmt.addFailure :: rest, flag =>
      let r := runBody rest flag
      ⟨r.assertPassed, r.expectFlag, Stmt.addFailure :: r.executed, r.reports + 1⟩

/-- A statement takes the fatal `longjmp` path exactly when it is an
assert-class check whose condition is false. -/
def fatalStmt : Stmt → Bool
  | Stmt.assertCheck ok => !ok
  | _ => false

/-- The descriptor `bmt_test_case_t` of include/baremetal_test.h.  The C
string fields are the character lists before the terminator; the function
pointer is the statement list of the body it points to. -/
structure TestCase where
  suite_name : List Char
  test_name : List Char
  func : List Stmt
  last_run_passed : Bool
  duration_ms : Nat
deriving DecidableEq, Repr

/-- The function `bmt_register_test` of src/bmt_runner.c acting on the
registry contents `g_bmt_test_cases[0 .. g_bmt_test_count)`.  When the count
is below capacity it appends a descriptor whose names are the `strncpy`
truncations to the buffer size minus one; otherwise it only prints the
overflow diagnostic.  The returned flag records whether that diagnostic was
emitted. -/
def bmt_register_test (cases : List TestCase) (suite_name test_name : List Char)
    (func : List Stmt) : List TestCase × Bool :=
  if cases.length < BMT_MAX_TEST_CASES then
    (cases ++ [⟨suite_name.take (BMT_MAX_SUITE_NAME_LEN - 1),
               test_name.take (BMT_MAX_TEST_NAME_LEN - 1), func, false, 0⟩], false)
  else
    (cases, true)

/-- Duration computation of bmt_run_all_tests (src/bmt_runner.c):
`(end_ticks >= start_ticks) ? (end_ticks - start_ticks)
                            : (0xFFFFFFFF - start_ticks + end_ticks + 1)`. -/
def bmt_duration (start_ticks end_ticks : Nat) : Nat :=
  if end_ticks ≥ start_ticks then end_ticks - start_ticks
  else 4294967295 - start_ticks + end_ticks + 1

/-- What one iteration of the run loop stores into descriptor `i`: the flag
is reset, the body runs from the `setjmp` point, and the descriptor receives
`last_run_passed = current_test_passed_assert && !g_bmt_current_test_failed_expect`
together with the wraparound-safe duration of the two tick captures. -/
def runOneTest (ticks : Nat → Nat) (i : Nat) (t : TestCase) : TestCase :=
  let r := runBody t.func false
  ⟨t.suite_name, t.test_name, t.func, r.assertPassed && !r.expectFlag,
   bmt_duration (ticks (2 * i) % U32) (ticks (2 * i + 1) % U32)⟩

/-- State produced by the main loop of `bmt_run_all_tests`: the updated
descriptors, the two counters, the `uint32_t` total-duration accumulator, the
trace of `[ RUN ]` notifications with the body invoked at each iteration (in
emission order), and the final value of the global expect flag. -/
structure LoopOut where
  tests : List TestCase
  passed : Nat
  failed : Nat
  total : Nat
  trace : List (List Char × List Char × List Stmt)
  gflag : Bool
deriving DecidableEq, Repr

/-- The main loop of `bmt_run_all_tests` (src/bmt_runner.c).  `i` is the loop
index (the `2*i`-th and `2*i+1`-th calls of `bmt_platform_get_msec_ticks`
surround body `i`; the platform values are reduced mod `U32` because the C
return type is `uint32_t`).  The incoming global expect flag is overwritten
with `false` at the start of every iteration, so the body always starts from
a clear flag; the flag value the body leaves behind is what the next
iteration receives (and immediately resets). -/
def runLoop (ticks : Nat → Nat) : Nat → Bool → List TestCase → LoopOut
  | _, g, [] => ⟨[], 0, 0, 0, [], g⟩
  | i, _, t :: rest =>
      let r := runBody t.func false
      let dur := bmt_duration (ticks (2 * i) % U32) (ticks (2 * i + 1) % U32)
      let passed := r.assertPassed && !r.expectFlag
      let o := runLoop ticks (i + 1) r.expectFlag rest
      ⟨⟨t.suite_name, t.test_name, t.func, passed, dur⟩ :: o.tests,
       if passed then o.passed + 1 else o.passed,
       if passed then o.failed else o.failed + 1,
       (dur + o.total) % U32,
       (t.suite_name, t.test_name, t.func) :: o.trace,
       o.gflag⟩

/-- Observable outcome of `bmt_run_all_tests`: final descriptors, the two
counters, the total duration, the invocation trace, the failing-tests list of
the summary (one suite/name pair per line, printed by the second loop only
when `tests_failed > 0`), whether that list was printed, and the return
value. -/
structure RunResult where
  tests : List TestCase
  tests_passed : Nat
  tests_failed : Nat
  total_duration_ms : Nat
  trace : List (List Char × List Char × List Stmt)
  failedList : List (List Char × List Char)
  printsFailedList : Bool
  ret : Nat
deriving DecidableEq, Repr

/-- The function `bmt_run_all_tests` of src/bmt_runner.c.  After the main
loop it prints the summary; when `tests_failed > 0` a second loop walks the
registry and prints `suite.name` for every descriptor with
`last_run_passed == false`.  The function returns `tests_failed`. -/
def bmt_run_all_tests (tests : List TestCase) (ticks : Nat → Nat) : RunResult :=
  let o := runLoop ticks 0 false tests
  ⟨o.tests, o.passed, o.failed, o.total, o.trace,
   if 0 < o.failed then
     (o.tests.filter (fun t => !t.last_run_passed)).map (fun t => (t.suite_name, t.test_name))
   else [],
   decide (0 < o.failed),
   o.failed⟩

/-- Descriptor built by a successful registration of one `(suite, name, body)`
specification, with the `strncpy` truncation of `bmt_register_test`. -/
def mkCase (spec : List Char × List Char × List Stmt) : TestCase :=
  ⟨spec.1.take (BMT_MAX_SUITE_NAME_LEN - 1), spec.2.1.take (BMT_MAX_TEST_NAME_LEN - 1),
   spec.2.2, false, 0⟩

/-- Registration phase: every `TEST` macro instance calls `bmt_register_test`
once from its constructor, in declaration order, starting from the empty
registry. -/
def registerAll (specs : List (List Char × List Char × List Stmt)) : List TestCase :=
  specs.foldl (fun st s => (bmt_register_test st s.1 s.2.1 s.2.2).1) []

/-- Digit-emission loop of `bmt_itoa` (src/bmt_runner.c): the C code counts
the digits of `t`, then writes `t % 10` at the last position and divides by
10, so the produced text is the recursion on `t / 10` followed by the digit
character of `t % 10`. -/
def itoaLoop (t : Nat) : List Char :=
  if h : t = 0 then []
  else itoaLoop (t / 10) ++ [Char.ofNat (t % 10 + 48)]
termination_by t
decreasing_by
  exact Nat.div_lt_self (Nat.pos_of_ne_zero h) (by omega)

/-- Width of the C type `long` (LP64 hosts; on the ILP32 Zynq shim the same
overflow happens at the 32-bit minimum instead). -/
def LONG_BITS : Nat := 64

/-- Two's-complement result of the source's `t = -t` (bmt_runner.c): the
negation computed in a signed `long` register.  For every value whose
negation is representable this is exact negation; for the minimum `long`
value the negation overflows (undefined behavior in C, wrapping back to the
minimum on the two's-complement targets this framework runs on). -/
def negLong (x : Int) : Int :=
  (-x + 2 ^ (LONG_BITS - 1)) % 2 ^ LONG_BITS - 2 ^ (LONG_BITS - 1)

/-- The function `bmt_itoa` of src/bmt_runner.c as the C string it stores
into the buffer.  A radix other than 10 stores `"radix_err"`; zero stores
`"0"`.  Otherwise the sign is written first when `val < 0` and `t` becomes
`-t` computed in `long` arithmetic (`negLong`); both digit loops run `while
(t > 0)`, so digits are emitted only when the (possibly overflowed) `t` is
positive — at the minimum `long` value `t` stays negative and the buffer
holds just the minus sign. -/
def bmt_itoa (val : Int) (radix : Int) : List Char :=
  if radix ≠ 10 then ['r', 'a', 'd', 'i', 'x', '_', 'e', 'r', 'r']
  else if val = 0 then ['0']
  else
    (if val < 0 then ['-'] else []) ++
      (if 0 < (if val < 0 then negLong val else val)
       then itoaLoop (if val < 0 then negLong val else val).toNat else [])

/-- Numeric value denoted by a list of decimal digit characters (helper for
stating what `bmt_itoa` renders). -/
def digitsVal (ds : List Char) : Nat :=
  ds.foldl (fun a c => 10 * a + (c.toNat - 48)) 0

/-- A variadic argument of `bmt_report_failure`: a string pointer (possibly
null) or a long value. -/
inductive FmtArg where
  | strArg : Option (List Char) → FmtArg
  | numArg : Int → FmtArg
deriving DecidableEq, Repr

/-- The message-formatting loop of `bmt_report_failure` (src/bmt_runner.c),
over the characters of `msg_fmt` before the null terminator.  `%s` emits the
string argument (or `(null)`); `%ld` emits the decimal rendering of the long
argument; any other character after `%` is emitted as `'%'` followed by that
character; a plain character is emitted as itself.  The result is `none` when
the loop runs into undefined behavior: when `'%'` is the last character the C
code emits `'%'` and the terminator byte itself, then advances `p` past the
terminator, so the next `while (*p)` reads outside the format string; a
`va_arg` beyond the supplied arguments or of the wrong type is likewise
undefined. -/
def fmtMsgLoop : List Char → List FmtArg → Option (List Char)
  | [], _ => some []
  | '%' :: rest, args =>
    match rest, args with
    | [], _ => none
    | 's' :: rest2, FmtArg.strArg s :: args2 =>
        (fmtMsgLoop rest2 args2).map
          (fun out =>
            (match s with
             | some cs => cs
             | none => ['(', 'n', 'u', 'l', 'l', ')']) ++ out)
    | 's' :: _, _ => none
    | 'l' :: 'd' :: rest2, FmtArg.numArg n :: args2 =>
        (fmtMsgLoop rest2 args2).map (fun out => bmt_itoa n 10 ++ out)
    | 'l' :: 'd' :: _, _ => none
    | c :: rest2, _ => (fmtMsgLoop rest2 args).map (fun out => '%' :: c :: out)
  | c :: rest, args => (fmtMsgLoop rest args).map (fun out => c :: out)

/-- Tick source that always returns zero (an acceptable platform stub). -/
def demoTicks : Nat → Nat := fun _ => 0

theorem runBody_flag_true (l : List Stmt) : (runBody l true).expectFlag = true := by
  induction l with
  | nil => rfl
  | cons s rest ih =>
    cases s with
    | action n => simpa [runBody] using ih
    | assertCheck ok =>
      cases ok with
      | false => rfl
      | true => simpa [runBody] using ih
    | expectCheck ok => cases ok <;> simp [runBody, ih]
    | addFailure => simpa [runBody] using ih

theorem runLoop_tests_length (ticks : Nat → Nat) (ts : List TestCase) :
    ∀ (i : Nat) (g : Bool), (runLoop ticks i g ts).tests.length = ts.length := by
  induction ts with
  | nil => intro i g; rfl
  | cons t rest ih => intro i g; simp [runLoop, ih]

theorem runLoop_tests_getElem (ticks : Nat → Nat) (ts : List TestCase) :
    ∀ (i : Nat) (g : Bool) (j : Nat),
      (runLoop ticks i g ts).tests[j]? = (ts[j]?).map (runOneTest ticks (i + j)) := by
  induction ts with
  | nil => intro i g j; simp [runLoop]
  | cons t rest ih =>
    intro i g j
    cases j with
    | zero => simp [runLoop, runOneTest]
    | succ j =>
      have h := ih (i + 1) ((runBody t.func false).expectFlag) j
      simp only [runLoop, List.getElem?_cons_succ, h]
      rw [show i + 1 + j = i + (j + 1) by omega]

theorem runLoop_passed_filter (ticks : Nat → Nat) (ts : List TestCase) :
    ∀ (i : Nat) (g : Bool),
      (runLoop ticks i g ts).passed =
        ((runLoop ticks i g ts).tests.filter (fun t => t.last_run_passed)).length := by
  induction ts with
  | nil => intro i g; rfl
  | cons t rest ih =>
    intro i g
    cases hp : (runBody t.func false).assertPassed && !(runBody t.func false).expectFlag <;>
      simp [runLoop, hp, ih]

theorem runLoop_failed_filter (ticks : Nat → Nat) (ts : List TestCase) :
    ∀ (i : Nat) (g : Bool),
      (runLoop ticks i g ts).failed =
        ((runLoop ticks i g ts).tests.filter (fun t => !t.last_run_passed)).length := by
  induction ts with
  | nil => intro i g; rfl
  | cons t rest ih =>
    intro i g
    cases hp : (runBody t.func false).assertPassed && !(runBody t.func false).expectFlag <;>
      simp [runLoop, hp, ih]

theorem runLoop_passed_add_failed (ticks : Nat → Nat) (ts : List TestCase) :
    ∀ (i : Nat) (g : Bool),
      (runLoop ticks i g ts).passed + (runLoop ticks i g ts).failed = ts.length := by
  induction ts with
  | nil => intro i g; rfl
  | cons t rest ih =>
    intro i g
    have h := ih (i + 1) ((runBody t.func false).expectFlag)
    cases hp : (runBody t.func false).assertPassed && !(runBody t.func false).expectFlag <;>
      simp [runLoop, hp] <;> omega

theorem runLoop_total_sum (ticks : Nat → Nat) (ts : List TestCase) :
    ∀ (i : Nat) (g : Bool),
      (runLoop ticks i g ts).total =
        (((runLoop ticks i g ts).tests.map (fun t => t.duration_ms)).sum) % U32 := by
  induction ts with
  | nil => intro i g; rfl
  | cons t rest ih =>
    intro i g
    have h := ih (i + 1) ((runBody t.func false).expectFlag)
    simp only [runLoop, List.map_cons, List.sum_cons, h, U32]
    omega

theorem runLoop_trace_map (ticks : Nat → Nat) (ts : List TestCase) :
    ∀ (i : Nat) (g : Bool),
      (runLoop ticks i g ts).trace =
        ts.map (fun t => (t.suite_name, t.test_name, t.func)) := by
  induction ts with
  | nil => intro i g; rfl
  | cons t rest ih => intro i g; simp [runLoop, ih]

theorem runLoop_tests_names (ticks : Nat → Nat) (ts : List TestCase) :
    ∀ (i : Nat) (g : Bool),
      (runLoop ticks i g ts).tests.map (fun t => (t.suite_name, t.test_name, t.func)) =
        ts.map (fun t => (t.suite_name, t.test_name, t.func)) := by
  induction ts with
  | nil => intro i g; rfl
  | cons t rest ih => intro i g; simp [runLoop, ih]

theorem runBody_fatal_stops (post : List Stmt) (pre : List Stmt) :
    ∀ (flag : Bool), (∀ s ∈ pre, fatalStmt s = false) →
      (runBody (pre ++ Stmt.assertCheck false :: post) flag).executed =
        pre ++ [Stmt.assertCheck false] ∧
      (runBody (pre ++ Stmt.assertCheck false :: post) flag).assertPassed = false := by
  induction pre with
  | nil => intro flag _; exact ⟨rfl, rfl⟩
  | cons s pre ih =>
    intro flag hs
    have hpre : ∀ s ∈ pre, fatalStmt s = false := fun x hx => hs x (List.mem_cons_of_mem s hx)
    have hhead : fatalStmt s = false := hs s (List.mem_cons_self s pre)
    cases s with
    | action n =>
      have h := ih flag hpre
      simp [runBody, h.1, h.2]
    | assertCheck ok =>
      cases ok with
      | false => simp [fatalStmt] at hhead
      | true =>
        have h := ih flag hpre
        simp [runBody, h.1, h.2]
    | expectCheck ok =>
      cases ok with
      | false =>
        have h := ih true hpre
        simp [runBody, h.1, h.2]
      | true =>
        have h := ih flag hpre
        simp [runBody, h.1, h.2]
    | addFailure =>
      have h := ih flag hpre
      simp [runBody, h.1, h.2]

theorem itoaLoop_zero : itoaLoop 0 = [] := by rw [itoaLoop]; simp

theorem itoaLoop_ne (t : Nat) (h : t ≠ 0) :
    itoaLoop t = itoaLoop (t / 10) ++ [Char.ofNat (t % 10 + 48)] := by
  rw [itoaLoop]; simp [h]

theorem digit_char_toNat (d : Nat) (h : d < 10) : (Char.ofNat (d + 48)).toNat = d + 48 := by
  interval_cases d <;> decide

theorem digit_char_isDigit (d : Nat) (h : d < 10) : (Char.ofNat (d + 48)).isDigit = true := by
  interval_cases d <;> decide

theorem digit_char_ne_zero (d : Nat) (h1 : 0 < d) (h2 : d < 10) :
    Char.ofNat (d + 48) ≠ '0' := by
  interval_cases d <;> decide

theorem digitsVal_append_digit (ds : List Char) (c : Char) :
    digitsVal (ds ++ [c]) = 10 * digitsVal ds + (c.toNat - 48) := by
  simp [digitsVal, List.foldl_append]

theorem itoaLoop_val (t : Nat) : digitsVal (itoaLoop t) = t := by
  induction t using Nat.strong_induction_on with
  | _ t ih =>
    by_cases h : t = 0
    · subst h; simp [itoaLoop_zero, digitsVal]
    · rw [itoaLoop_ne t h, digitsVal_append_digit, digit_char_toNat _ (Nat.mod_lt _ (by omega)),
          ih (t / 10) (Nat.div_lt_self (Nat.pos_of_ne_zero h) (by omega))]
      omega

theorem itoaLoop_digits (t : Nat) : ∀ c ∈ itoaLoop t, c.isDigit = true := by
  induction t using Nat.strong_induction_on with
  | _ t ih =>
    by_cases h : t = 0
    · subst h; simp [itoaLoop_zero]
    · rw [itoaLoop_ne t h]
      intro c hc
      rcases List.mem_append.1 hc with h1 | h1
      · exact ih (t / 10) (Nat.div_lt_self (Nat.pos_of_ne_zero h) (by omega)) c h1
      · have : c = Char.ofNat (t % 10 + 48) := by simpa using h1
        subst this
        exact digit_char_isDigit _ (Nat.mod_lt _ (by omega))

theorem itoaLoop_head (t : Nat) :
    0 < t → itoaLoop t ≠ [] ∧ (itoaLoop t).head? ≠ some '0' := by
  induction t using Nat.strong_induction_on with
  | _ t ih =>
    intro ht
    by_cases h10 : t / 10 = 0
    · have hlt : t < 10 := by omega
      have hmod : t % 10 = t := Nat.mod_eq_of_lt hlt
      rw [itoaLoop_ne t (by omega), h10, itoaLoop_zero, List.nil_append, hmod]
      refine ⟨by simp, ?_⟩
      intro hc
      rw [List.head?_cons, Option.some.injEq] at hc
      exact digit_char_ne_zero t ht hlt hc
    · have hpos : 0 < t / 10 := Nat.pos_of_ne_zero h10
      have hlt : t / 10 < t := Nat.div_lt_self ht (by omega)
      have hh := ih (t / 10) hlt hpos
      obtain ⟨a, l', heq⟩ := List.exists_cons_of_ne_nil hh.1
      rw [itoaLoop_ne t (by omega), heq]
      refine ⟨by simp, ?_⟩
      intro hcontra
      rw [List.cons_append, List.head?_cons, Option.some.injEq] at hcontra
      apply hh.2
      rw [heq, List.head?_cons, hcontra]

theorem registerFrom_append (specs : List (List Char × List Char × List Stmt)) :
    ∀ st : List TestCase, st.length + specs.length ≤ BMT_MAX_TEST_CASES →
      specs.foldl (fun st s => (bmt_register_test st s.1 s.2.1 s.2.2).1) st =
        st ++ specs.map mkCase := by
  induction specs with
  | nil => intro st _; simp
  | cons s specs ih =>
    intro st h
    have hlt : st.length < BMT_MAX_TEST_CASES := by
      simp only [List.length_cons] at h
      omega
    have hstep : (bmt_register_test st s.1 s.2.1 s.2.2).1 = st ++ [mkCase s] := by
      simp [bmt_register_test, hlt, mkCase]
    have hlen : (st ++ [mkCase s]).length + specs.length ≤ BMT_MAX_TEST_CASES := by
      simp only [List.length_cons] at h
      simp only [List.length_append, List.length_cons, List.length_nil]
      omega
    simp only [List.foldl_cons, List.map_cons, hstep]
    rw [ih (st ++ [mkCase s]) hlen, List.append_assoc, List.singleton_append]

/-- Registry with a fatally failing first test and a passing second test,
used to witness concrete runs. -/
def demoTests1 : List TestCase :=
  [⟨['s'], ['a'], [Stmt.action 1, Stmt.assertCheck false, Stmt.action 2], false, 0⟩,
   ⟨['s'], ['b'], [Stmt.action 3], false, 0⟩]

/-- Registry holding exactly `BMT_MAX_TEST_CASES` descriptors. -/
def fullRegistry : List TestCase := List.replicate 64 ⟨['s'], ['t'], [], false, 0⟩

/-- Claim C1: a fatal (assert-class) failure inside a test body transfers
control to the per-test resumption point, so no statement after the failing
check in that body executes; the fatal outcome of that test is recorded as
fail; and the runner still produces a result for every registered
descriptor, each determined by its own body alone — the run never aborts
because of a fatal test failure. -/
theorem C1_fatal_failure_isolated (tests : List TestCase) (ticks : Nat → Nat)
    (pre post : List Stmt) (flag : Bool) (i : Nat)
    (hpre : ∀ s ∈ pre, fatalStmt s = false)
    (hbody : (tests[i]?).map (fun t => t.func) = some (pre ++ Stmt.assertCheck false :: post)) :
    (runBody (pre ++ Stmt.assertCheck false :: post) flag).executed =
      pre ++ [Stmt.assertCheck false] ∧
    (runBody (pre ++ Stmt.assertCheck false :: post) flag).assertPassed = false ∧
    ((bmt_run_all_tests tests ticks).tests[i]?).map (fun t => t.last_run_passed) = some false ∧
    (bmt_run_all_tests tests ticks).tests.length = tests.length ∧
    (∀ j, (bmt_run_all_tests tests ticks).tests[j]? = (tests[j]?).map (runOneTest ticks j)) := by
  have hstop := runBody_fatal_stops post pre flag hpre
  have hget : ∀ j, (bmt_run_all_tests tests ticks).tests[j]? =
      (tests[j]?).map (runOneTest ticks j) := by
    intro j
    simpa [bmt_run_all_tests] using runLoop_tests_getElem ticks tests 0 false j
  refine ⟨hstop.1, hstop.2, ?_, ?_, hget⟩
  · cases hti : tests[i]? with
    | none => simp [hti] at hbody
    | some t =>
      have hfunc : t.func = pre ++ Stmt.assertCheck false :: post := by
        simpa [hti] using hbody
      rw [hget i, hti]
      have hfail := (runBody_fatal_stops post pre false hpre).2
      simp [runOneTest, hfunc, hfail]
  · simpa [bmt_run_all_tests] using runLoop_tests_length ticks tests 0 false

/-- Witness for C1: in the concrete registry `demoTests1`, the first test
fatally fails and is recorded as failed. -/
theorem C1_fatal_failure_isolated_witness :
    ((bmt_run_all_tests demoTests1 demoTicks).tests[0]?).map
      (fun t => t.last_run_passed) = some false :=
  (C1_fatal_failure_isolated demoTests1 demoTicks [Stmt.action 1] [Stmt.action 2]
    false 0 (by decide) rfl).2.2.1

/-- Claim C2: an expect-class check failure reports, sets the non-fatal
failure flag and lets the rest of the body run; the flag stays set for the
remainder of the body; the flag is reset at the start of each test (every
descriptor is updated from its body run with a clear flag); and the final
recorded state is the conjunction of the fatal outcome and the negated
flag. -/
theorem C2_expect_failure_semantics (tests : List TestCase) (ticks : Nat → Nat) :
    (∀ i, (bmt_run_all_tests tests ticks).tests[i]? = (tests[i]?).map (runOneTest ticks i)) ∧
    (∀ (t : TestCase) (i : Nat), (runOneTest ticks i t).last_run_passed =
      ((runBody t.func false).assertPassed && !(runBody t.func false).expectFlag)) ∧
    (∀ (rest : List Stmt) (flag : Bool),
      runBody (Stmt.expectCheck false :: rest) flag =
        ⟨(runBody rest true).assertPassed, (runBody rest true).expectFlag,
         Stmt.expectCheck false :: (runBody rest true).executed,
         (runBody rest true).reports + 1⟩) ∧
    (∀ body : List Stmt, (runBody body true).expectFlag = true) := by
  refine ⟨?_, fun t i => rfl, fun rest flag => rfl, runBody_flag_true⟩
  intro i
  simpa [bmt_run_all_tests] using runLoop_tests_getElem ticks tests 0 false i

/-- Claim C3: the run returns exactly the number of descriptors whose final
state is failed; the failing-tests list is printed exactly when that number
is positive, and then enumerates exactly the failing descriptors in registry
(registration) order; the return value is zero exactly when every test
passed. -/
theorem C3_return_count_and_failed_list (tests : List TestCase) (ticks : Nat → Nat) :
    (bmt_run_all_tests tests ticks).ret =
      ((bmt_run_all_tests tests ticks).tests.filter (fun t => !t.last_run_passed)).length ∧
    (bmt_run_all_tests tests ticks).printsFailedList =
      decide (0 < (bmt_run_all_tests tests ticks).ret) ∧
    (bmt_run_all_tests tests ticks).failedList =
      (if 0 < (bmt_run_all_tests tests ticks).ret then
        ((bmt_run_all_tests tests ticks).tests.filter (fun t => !t.last_run_passed)).map
          (fun t => (t.suite_name, t.test_name))
       else []) ∧
    ((bmt_run_all_tests tests ticks).ret = 0 ↔
      ∀ t ∈ (bmt_run_all_tests tests ticks).tests, t.last_run_passed = true) := by
  have hf : (bmt_run_all_tests tests ticks).ret =
      ((bmt_run_all_tests tests ticks).tests.filter (fun t => !t.last_run_passed)).length := by
    simpa [bmt_run_all_tests] using runLoop_failed_filter ticks tests 0 false
  refine ⟨hf, rfl, rfl, ?_⟩
  rw [hf]
  simp [List.length_eq_zero, List.filter_eq_nil_iff]

/-- Claim C4: a registration attempt against a registry already holding
`BMT_MAX_TEST_CASES` descriptors changes nothing, only emits the diagnostic,
and the count can never be pushed beyond the capacity. -/
theorem C4_register_overflow (cases : List TestCase) (suite_name test_name : List Char)
    (func : List Stmt) (hfull : cases.length = BMT_MAX_TEST_CASES) :
    bmt_register_test cases suite_name test_name func = (cases, true) ∧
    (bmt_register_test cases suite_name test_name func).1.length = cases.length ∧
    (∀ cs : List TestCase, cs.length ≤ BMT_MAX_TEST_CASES →
      (bmt_register_test cs suite_name test_name func).1.length ≤ BMT_MAX_TEST_CASES) := by
  have h1 : bmt_register_test cases suite_name test_name func = (cases, true) := by
    simp [bmt_register_test, hfull]
  refine ⟨h1, by rw [h1], ?_⟩
  intro cs hcs
  unfold bmt_register_test
  by_cases h : cs.length < BMT_MAX_TEST_CASES
  · rw [if_pos h]
    simp only [List.length_append, List.length_cons, List.length_nil]
    simp only [BMT_MAX_TEST_CASES] at h ⊢
    omega
  · rw [if_neg h]
    exact hcs

/-- Witness for C4 at a registry of exactly 64 descriptors. -/
theorem C4_register_overflow_witness :
    bmt_register_test fullRegistry ['x'] ['y'] [] = (fullRegistry, true) :=
  (C4_register_overflow fullRegistry ['x'] ['y'] []
    (by simp [fullRegistry, BMT_MAX_TEST_CASES])).1

/-- Claim C5: per test, the recorded duration is computed from the two
captured 32-bit tick values by wraparound-safe subtraction; the documented
wraparound example evaluates to 21; and the run total is the accumulated
(32-bit) sum of the per-test durations. -/
theorem C5_duration_wraparound (tests : List TestCase) (ticks : Nat → Nat) :
    (∀ s e : Nat, s < U32 → e < U32 →
      bmt_duration s e = if s ≤ e then e - s else 4294967295 - s + e + 1) ∧
    bmt_duration 4294967280 5 = 21 ∧
    (∀ i, ((bmt_run_all_tests tests ticks).tests[i]?).map (fun t => t.duration_ms) =
      (tests[i]?).map (fun _ => bmt_duration (ticks (2 * i) % U32) (ticks (2 * i + 1) % U32))) ∧
    (bmt_run_all_tests tests ticks).total_duration_ms =
      (((bmt_run_all_tests tests ticks).tests.map (fun t => t.duration_ms)).sum) % U32 := by
  refine ⟨fun s e _ _ => rfl, by decide, ?_, ?_⟩
  · intro i
    have h : (bmt_run_all_tests tests ticks).tests[i]? =
        (tests[i]?).map (runOneTest ticks i) := by
      simpa [bmt_run_all_tests] using runLoop_tests_getElem ticks tests 0 false i
    rw [h]
    cases tests[i]? <;> simp [runOneTest]
  · simpa [bmt_run_all_tests] using runLoop_total_sum ticks tests 0 false

/-- Witness for C5: the wraparound formula applied to the spec's example
ticks, through the general 32-bit statement. -/
theorem C5_duration_wraparound_witness :
    bmt_duration 4294967280 5 =
      if 4294967280 ≤ 5 then 5 - 4294967280 else 4294967295 - 4294967280 + 5 + 1 :=
  (C5_duration_wraparound [] demoTicks).1 4294967280 5 (by decide) (by decide)

/-- Claim C6 is a code bug: `ADD_FAILURE()` calls `bmt_report_failure` and
nothing else, so it reports (one report is recorded), does not take the
fatal path and lets the body continue — but it never sets
`g_bmt_current_test_failed_expect`, so a test whose only failure is
`ADD_FAILURE()` is recorded as passed and the run returns 0, against the
claim (and the macro's own documentation). -/
theorem C6_add_failure_not_recorded :
    runBody [Stmt.addFailure, Stmt.action 7] false =
      ⟨true, false, [Stmt.addFailure, Stmt.action 7], 1⟩ ∧
    ((bmt_run_all_tests [⟨['s'], ['t'], [Stmt.addFailure, Stmt.action 7], false, 0⟩]
        demoTicks).tests.map (fun t => t.last_run_passed)) = [true] ∧
    (bmt_run_all_tests [⟨['s'], ['t'], [Stmt.addFailure, Stmt.action 7], false, 0⟩]
        demoTicks).ret = 0 := by
  exact ⟨rfl, rfl, rfl⟩

/-- Claim C7: registering N ≤ capacity specifications into an empty registry
yields exactly N descriptors, the i-th built from the i-th specification,
and the runner invokes the registered bodies in exactly registration
order (the invocation trace lists the registry in order). -/
theorem C7_register_order (specs : List (List Char × List Char × List Stmt)) (ticks : Nat → Nat)
    (hcap : specs.length ≤ BMT_MAX_TEST_CASES) :
    (registerAll specs).length = specs.length ∧
    (∀ i : Nat, (registerAll specs)[i]? = (specs[i]?).map mkCase) ∧
    (bmt_run_all_tests (registerAll specs) ticks).trace =
      (registerAll specs).map (fun t => (t.suite_name, t.test_name, t.func)) := by
  have hreg : registerAll specs = specs.map mkCase := by
    simpa [registerAll] using registerFrom_append specs [] (by simpa using hcap)
  refine ⟨by rw [hreg]; simp, ?_, ?_⟩
  · intro i
    rw [hreg]
    exact List.getElem?_map mkCase specs i
  · simpa [bmt_run_all_tests] using runLoop_trace_map ticks (registerAll specs) 0 false

/-- Witness for C7 at a concrete two-specification registration. -/
theorem C7_register_order_witness :
    (registerAll [(['s'], ['a'], [Stmt.action 1]), (['s'], ['b'], [])]).length =
      [(['s'], ['a'], [Stmt.action 1]), (['s'], ['b'], [])].length :=
  (C7_register_order [(['s'], ['a'], [Stmt.action 1]), (['s'], ['b'], [])]
    demoTicks (by decide)).1

/-- Counterexample to C8 as stated: at the minimum `long` value the
source's `t = -t` overflows, `t` stays non-positive, both digit loops are
skipped, and the buffer holds a bare minus sign — not a minus sign followed
by the decimal digits of the magnitude. -/
theorem C8_itoa_decimal_counterexample :
    bmt_itoa (-9223372036854775808) 10 = ['-'] ∧
    ¬ ∃ ds : List Char,
        bmt_itoa (-9223372036854775808) 10 = '-' :: ds ∧ ds ≠ [] := by
  have h : bmt_itoa (-9223372036854775808) 10 = ['-'] := by
    have hneg : negLong (-9223372036854775808) = -9223372036854775808 := by
      simp only [negLong, LONG_BITS]
      decide
    simp [bmt_itoa, hneg]
  refine ⟨h, ?_⟩
  rintro ⟨ds, h1, h2⟩
  rw [h] at h1
  exact h2 (List.cons.inj h1).2.symm

/-- Claim C8 (amended): decimal conversion maps 0 to "0"; every negative
long value other than the minimum (those whose negation is representable)
to a minus sign followed by the decimal digits of its magnitude with no
leading zero; and a positive value to its decimal digits with no leading
zero and no sign (every emitted character is a digit and the digit string
denotes the magnitude). -/
theorem C8_itoa_decimal (val : Int) :
    bmt_itoa 0 10 = ['0'] ∧
    (val < 0 → -9223372036854775808 < val →
      bmt_itoa val 10 = '-' :: itoaLoop val.natAbs ∧
      itoaLoop val.natAbs ≠ [] ∧
      (∀ c ∈ itoaLoop val.natAbs, c.isDigit = true) ∧
      (itoaLoop val.natAbs).head? ≠ some '0' ∧
      digitsVal (itoaLoop val.natAbs) = val.natAbs) ∧
    (0 < val →
      bmt_itoa val 10 = itoaLoop val.natAbs ∧
      itoaLoop val.natAbs ≠ [] ∧
      (∀ c ∈ itoaLoop val.natAbs, c.isDigit = true) ∧
      (itoaLoop val.natAbs).head? ≠ some '0' ∧
      digitsVal (itoaLoop val.natAbs) = val.natAbs) := by
  refine ⟨by simp [bmt_itoa], ?_, ?_⟩
  · intro hneg hmin
    have hne : val ≠ 0 := hneg.ne
    have hwrap : negLong val = -val := by
      simp only [negLong, LONG_BITS]
      norm_num
      omega
    have htn : (-val).toNat = val.natAbs := by omega
    have h0 : (0 : Int) < -val := by omega
    have hpos : 0 < val.natAbs := Int.natAbs_pos.2 hne
    have hh := itoaLoop_head val.natAbs hpos
    refine ⟨?_, hh.1, itoaLoop_digits _, hh.2, itoaLoop_val _⟩
    simp [bmt_itoa, hne, hneg, hwrap, h0, htn]
  · intro hposv
    have hne : val ≠ 0 := hposv.ne'
    have hnneg : ¬ val < 0 := by omega
    have htn : val.toNat = val.natAbs := by omega
    have hpos : 0 < val.natAbs := Int.natAbs_pos.2 hne
    have hh := itoaLoop_head val.natAbs hpos
    refine ⟨?_, hh.1, itoaLoop_digits _, hh.2, itoaLoop_val _⟩
    simp [bmt_itoa, hne, hnneg, hposv, htn]

/-- Witness for the amended C8 at the negative input -45. -/
theorem C8_itoa_decimal_witness :
    bmt_itoa (-45) 10 = '-' :: itoaLoop (Int.natAbs (-45)) :=
  ((C8_itoa_decimal (-45)).2.1 (by decide) (by decide)).1

/-- Claim C9 is a code bug: directives other than `%s` and `%ld` are indeed
emitted verbatim and ordinary formats complete (first four conjuncts), but a
format string whose last character is `'%'` drives the loop past the null
terminator — the code emits `'%'` and the terminator byte itself, then
advances `p` beyond it, so the next `while (*p)` reads outside the string
(undefined behavior, modelled as `none`). -/
theorem C9_fmt_verbatim_and_trailing_percent :
    fmtMsgLoop ['%', 'q'] [] = some ['%', 'q'] ∧
    fmtMsgLoop ['%', 'd'] [] = some ['%', 'd'] ∧
    fmtMsgLoop ['a', '%', 'l', 'x', 'b'] [] = some ['a', '%', 'l', 'x', 'b'] ∧
    fmtMsgLoop ['x', '%', 'l', 'd'] [FmtArg.numArg 7] = some ['x', '7'] ∧
    fmtMsgLoop ['%'] [] = none := by
  refine ⟨rfl, rfl, rfl, ?_, rfl⟩
  simp [fmtMsgLoop, bmt_itoa, itoaLoop]

/-- Claim C10: every loop iteration increments exactly one of the two
counters, so passed + failed equals the number of registered tests and the
returned failure count is bounded by it. -/
theorem C10_counts_partition (tests : List TestCase) (ticks : Nat → Nat) :
    (bmt_run_all_tests tests ticks).tests_passed + (bmt_run_all_tests tests ticks).tests_failed =
      tests.length ∧
    (bmt_run_all_tests tests ticks).ret = (bmt_run_all_tests tests ticks).tests_failed ∧
    (bmt_run_all_tests tests ticks).ret ≤ tests.length := by
  have h : (bmt_run_all_tests tests ticks).tests_passed +
      (bmt_run_all_tests tests ticks).tests_failed = tests.length := by
    simpa [bmt_run_all_tests] using runLoop_passed_add_failed ticks tests 0 false
  have h2 : (bmt_run_all_tests tests ticks).ret =
      (bmt_run_all_tests tests ticks).tests_failed := rfl
  exact ⟨h, h2, by omega⟩
